import Mathlib

/-!
Shallow embedding of the acquisition pipeline of `proxybroker/providers.py`:
the fetch/retry engine (`Provider._get`, `Provider.get`), the aggregator
(`Provider.proxies` setter), the page pipeline (`Provider._find_on_page`),
the two port-deobfuscation interpreters (`Xseo_in`/`Nntime_com` digit
substitution, `Spys_ru` XOR tokens) and the crawl planners
(`Webanetlabs_net._pipe`, `Spys_ru._pipe`).

Network effects are modelled by passing the data the awaited calls would
return (response outcomes, fetched page texts, regex-extraction results)
as explicit arguments; Python exceptions that escape a function are
modelled by `Option`/`Except` results, and exceptions that the Python code
catches internally are resolved to the value the code returns after
catching them.
-/

namespace ProxyBroker

/-- Outcome of one HTTP attempt inside `Provider._get`, as seen from the
`try` block: either the request/body-read raised before `page` was
assigned (`fail`: timeout, connection error, or `resp.text()` raising), or
a response arrived whose body was read successfully (`resp status body`). -/
inductive AttemptResult where
  | fail
  | resp (status : Nat) (body : String)
deriving DecidableEq, Repr

/-- Result of `Provider._get`: the string it returns, plus whether a
`BadStatusError` was raised (and immediately caught) during the attempt. -/
structure GetResult where
  page : String
  badStatus : Bool
deriving DecidableEq, Repr

/-- Embeds `Provider._get` (providers.py lines 134-151).  `page` starts as
`''`; on a successful body read `page` is assigned the body *before* the
status check; a non-200 status then raises `BadStatusError`, which the
`except Exception` clause catches, after which the already-assigned `page`
(the non-200 body) is returned.  If the request or body read itself raised,
`page` is still `''`. -/
def Provider._get (r : AttemptResult) : GetResult :=
  match r with
  | .fail => { page := "", badStatus := false }
  | .resp status body => { page := body, badStatus := status != 200 }

/-- Page text contributed by the i-th attempt, via `Provider._get`. -/
def pageOf (attempts : Nat → AttemptResult) (i : Nat) : String :=
  (Provider._get (attempts i)).page

/-- Loop of `Provider.get` (providers.py lines 126-131): `i` is the index
of the next attempt, the second argument the remaining iterations of
`range(self._max_tries)`, the third the current value of the local `page`
(`none` = not yet bound).  Returns the final value of `page` (`none` =
`UnboundLocalError` at `return page`) and the number of attempts issued. -/
def Provider.getLoop (attempts : Nat → AttemptResult) :
    Nat → Nat → Option String → Option String × Nat
  | i, 0, page => (page, i)
  | i, r + 1, _ =>
    if pageOf attempts i = "" then
      Provider.getLoop attempts (i + 1) r (some (pageOf attempts i))
    else (some (pageOf attempts i), i + 1)

/-- Embeds `Provider.get` (providers.py lines 125-132): run the attempt
loop `maxTries` times starting from the unbound local `page`. -/
def Provider.get (maxTries : Nat) (attempts : Nat → AttemptResult) :
    Option String × Nat :=
  Provider.getLoop attempts 0 maxTries none

/-- First-match association-list lookup, modelling a Python dict read
(`none` = `KeyError`); insertion is modelled by prepending, so the most
recent binding wins, as in dict assignment. -/
def lookupTable {α β : Type} [DecidableEq α] : List (α × β) → α → Option β
  | [], _ => none
  | (k, v) :: rest, a => if a = k then some v else lookupTable rest a

/-- State of a `Provider` relevant to aggregation: the declared protocol
tuple `self.proto` and the result set `self._proxies` (a Python `set` of
`(host, port, proto)` triples). -/
structure ProviderState where
  proto : List String
  _proxies : Finset (String × String × List String)

/-- Embeds `Provider.__init__` (providers.py lines 35-49) as far as
aggregation state goes: `self.proto = proto` and `self._proxies = set()`. -/
def Provider.init (proto : List String) : ProviderState :=
  { proto := proto, _proxies := ∅ }

/-- Embeds the `Provider.proxies` setter (providers.py lines 66-69):
`new = [(host, port, self.proto) for host, port in new if port]` followed
by `self._proxies.update(new)`.  A falsy (empty) port string is dropped. -/
def Provider.proxies_setter (st : ProviderState)
    (new : List (String × String)) : ProviderState :=
  { st with
    _proxies := st._proxies ∪
      ((new.filter (fun hp => hp.2 ≠ "")).map
        (fun hp => (hp.1, hp.2, st.proto))).toFinset }

/-- Fold of the `proxies` setter over a sequence of extracted candidate
lists, one per page, in some arrival order. -/
def Provider.mergeAll (st : ProviderState) :
    List (List (String × String)) → ProviderState
  | [] => st
  | l :: ls => Provider.mergeAll (Provider.proxies_setter st l) ls

/-- Embeds `Provider._find_on_page` (providers.py lines 105-123) given the
page text `Provider.get` returned and the outcome of `find_proxies` on it
(`Except.error` = `find_proxies` raised).  An empty page returns early; an
extraction error is caught and replaced by the empty candidate list; then
`self.proxies = received` runs the setter. -/
def Provider._find_on_page (st : ProviderState) (page : String)
    (found : Except String (List (String × String))) : ProviderState :=
  if page = "" then st
  else
    Provider.proxies_setter st
      (match found with
        | .ok l => l
        | .error _ => [])

/-- A source run at the aggregation level: each entry is one crawled page,
as the pair of the text its fetch returned and its extraction outcome. -/
def Provider.runPages (st : ProviderState) :
    List (String × Except String (List (String × String))) → ProviderState
  | [] => st
  | (page, found) :: rest =>
    Provider.runPages (Provider._find_on_page st page found) rest

/-- Splits a character list at every occurrence of `sep`, like Python
`str.split(sep)`: no piece contains `sep`, empty pieces are kept, and the
empty input yields one empty piece. -/
def splitChar (sep : Char) : List Char → List (List Char)
  | [] => [[]]
  | c :: rest =>
    let r := splitChar sep rest
    if c = sep then [] :: r
    else
      match r with
      | [] => [[c]]
      | piece :: more => (c :: piece) :: more

/-- Python `s.split(sep)` for a single-character separator. -/
def strSplit (sep : Char) (s : String) : List String :=
  (splitChar sep s.toList).map (fun l => ⟨l⟩)

/-- Python `int(s)` restricted to the strings the providers feed it
(matches of `[a-z\d]*`): succeeds exactly on a non-empty digit string
(`none` = `ValueError`). -/
def strToNat (s : String) : Option Nat :=
  let l := s.toList
  if l ≠ [] && l.all Char.isDigit then
    some (l.foldl (fun acc c => acc * 10 + (c.toNat - 48)) 0)
  else none

/-- Python `s.strip('()')`: drop `(` and `)` characters from both ends. -/
def stripParens (s : String) : String :=
  let isParen : Char → Bool := fun c => c = '(' || c = ')'
  ⟨((s.toList.dropWhile isParen).reverse.dropWhile isParen).reverse⟩

/-- Embeds `Xseo_in.char_js_port_to_num` (providers.py lines 263-266),
acting on the captured group `chars` (a run of `[a-z+]`):
`''.join([self.charEqNum[ch] for ch in chars if ch != '+'])`.  The table
maps a letter to the digit *string* captured by `(?P<num>\d)`; a letter
absent from the table is a `KeyError` (`none`). -/
def Xseo_in.char_js_port_to_num (tbl : List (Char × String)) :
    List Char → Option String
  | [] => some ""
  | c :: rest =>
    if c = '+' then Xseo_in.char_js_port_to_num tbl rest
    else
      match lookupTable tbl c with
      | some d => (Xseo_in.char_js_port_to_num tbl rest).map (fun r => d ++ r)
      | none => none

/-- Embeds `Nntime_com.char_js_port_to_num` (providers.py lines 292-295),
which is textually identical to the `Xseo_in` one. -/
def Nntime_com.char_js_port_to_num : List (Char × String) →
    List Char → Option String :=
  Xseo_in.char_js_port_to_num

/-- One maximal segment of a page as `re.sub` sees it: literal text left
untouched, or the captured group of one expression-site match to be
replaced. -/
inductive PageSeg where
  | lit (s : String)
  | site (chars : String)

/-- Embeds the `re.sub(expPortOnJS, self.char_js_port_to_num, page)` step
of `Xseo_in.find_proxies` / `Nntime_com.find_proxies` (providers.py lines
268-273 and 297-302): every expression site is replaced by the digits the
substitution callback returns; if the callback raises (`none`), `re.sub`
propagates the exception and the whole rewrite fails. -/
def Xseo_in.rewritePage (tbl : List (Char × String)) :
    List PageSeg → Option String
  | [] => some ""
  | .lit s :: rest => (Xseo_in.rewritePage tbl rest).map (fun r => s ++ r)
  | .site cs :: rest =>
    match Xseo_in.char_js_port_to_num tbl cs.toList with
    | some num => (Xseo_in.rewritePage tbl rest).map (fun r => num ++ r)
    | none => none

/-- Embeds `Spys_ru.char_js_port_to_num` (providers.py lines 314-325)
after `chars = matchobj.groups()[0].split('+')` and `chars[1:]`: for each
remaining piece, strip parentheses, split on `^` into exactly two token
names (`ValueError` otherwise), look both up (`KeyError` = `none`), XOR
them, and append the decimal digits. -/
def Spys_ru.xorPairs (tbl : List (String × Nat)) :
    List String → Option String
  | [] => some ""
  | p :: rest =>
    match strSplit '^' (stripParens p) with
    | [v1, v2] =>
      match lookupTable tbl v1, lookupTable tbl v2 with
      | some a, some b =>
        (Spys_ru.xorPairs tbl rest).map (fun r => toString (a ^^^ b) ++ r)
      | _, _ => none
    | _ => none

/-- Embeds `Spys_ru.char_js_port_to_num` on the whole captured group, e.g.
`"+(i9w3m3^k1y5)+(g7g7g7^v2e5)"`: split on `+` and drop the first piece
(`chars[1:]`), then process the pairs. -/
def Spys_ru.char_js_port_to_num (tbl : List (String × Nat)) (s : String) :
    Option String :=
  Spys_ru.xorPairs tbl (strSplit '+' s).tail

/-- Embeds the token-table resolution loop of `Spys_ru.find_proxies`
(providers.py lines 333-338) over the `(char, num)` pairs produced by
`re.findall(expCharNum, page)`, starting from the current table (`Spys_ru`
shares one mutable `charEqNum` dict).  A composite `num` is split on `^`
into exactly two parts; the **first** part goes through `int()` (so it
must be a digit literal, `ValueError` otherwise) and the **second** is
looked up as a token name; a literal `num` goes through `int()` directly.
`none` models an exception escaping `find_proxies`. -/
def Spys_ru.resolveTokens : List (String × String) → List (String × Nat) →
    Option (List (String × Nat))
  | [], tbl => some tbl
  | (c, num) :: rest, tbl =>
    if (num.toList.contains '^') then
      match strSplit '^' num with
      | [digit, tochar] =>
        match strToNat digit, lookupTable tbl tochar with
        | some d, some v => Spys_ru.resolveTokens rest ((c, d ^^^ v) :: tbl)
        | _, _ => none
      | _ => none
    else
      match strToNat num with
      | some n => Spys_ru.resolveTokens rest ((c, n) :: tbl)
      | none => none

/-- True of characters in the class `[a-z0-9]` of `expSession`. -/
def isSessChar (c : Char) : Bool :=
  c.isDigit || (('a' ≤ c) && (c ≤ 'z'))

/-- Match of `r"'([a-z0-9]{32})'"` anchored at the start of the character
list: an apostrophe, exactly 32 characters of `[a-z0-9]`, an apostrophe;
returns the captured group. -/
def sessMatchAt : List Char → Option String
  | q :: rest =>
    if q = '\'' then
      let tok := rest.take 32
      if tok.length = 32 && tok.all isSessChar then
        match rest.drop 32 with
        | q2 :: _ => if q2 = '\'' then some ⟨tok⟩ else none
        | [] => none
      else none
    else none
  | [] => none

/-- Leftmost match of the session-id regex over a character list. -/
def findSessionAux : List Char → Option String
  | [] => none
  | c :: rest =>
    match sessMatchAt (c :: rest) with
    | some s => some s
    | none => findSessionAux rest

/-- Embeds `re.findall(r"'([a-z0-9]{32})'", page)[0]` of `Spys_ru._pipe`:
the first captured session id, or `none` when `findall` returns `[]` and
the `[0]` subscript raises `IndexError`. -/
def Spys_ru.findSession (page : String) : Option String :=
  findSessionAux page.toList

/-- One POST request planned by `Spys_ru._pipe`: the session id `xx0`, the
page-size parameter `xpp` and the anonymity filter `xf1`. -/
structure XfReq where
  xx0 : String
  xpp : Nat
  xf1 : Nat
deriving DecidableEq, Repr

/-- Embeds `Spys_ru._pipe` (providers.py lines 342-359) given the text the
initial `self.get(url)` returned: an empty page returns early with no
follow-up requests; otherwise the session id is extracted with
`re.findall(...)[0]` — which raises `IndexError` (the `Except.error`
branch) when the page holds no session token — and two POST requests are
planned, one per anonymity level in `[3, 4]`. -/
def Spys_ru._pipe (page : String) : Except String (List XfReq) :=
  if page = "" then .ok []
  else
    match Spys_ru.findSession page with
    | some sid => .ok [⟨sid, 5, 3⟩, ⟨sid, 5, 4⟩]
    | none => .error "IndexError: list index out of range"

/-- Embeds `Webanetlabs_net._pipe` (providers.py lines 187-195) given the
text the initial `self.get(...)` returned; the link regex
`href\s*=\s*['"]([^'"]*proxylist2022[^'"]*)['"]` is abstracted as the
`findLinks` argument (its `re.findall` cannot raise).  An empty page
returns early; otherwise each found path is prefixed with the site root
and crawled. -/
def Webanetlabs_net._pipe (findLinks : String → List String)
    (page : String) : Except String (List String) :=
  if page = "" then .ok []
  else .ok ((findLinks page).map (fun path => "https://webanetlabs.net" ++ path))

/-! Helper lemmas about the retry loop of `Provider.get`. -/

theorem getLoop_count_le (attempts : Nat → AttemptResult) :
    ∀ r i page, (Provider.getLoop attempts i r page).2 ≤ i + r := by
  intro r
  induction r with
  | zero => intro i page; simp [Provider.getLoop]
  | succ r ih =>
    intro i page
    simp only [Provider.getLoop]
    by_cases h : pageOf attempts i = ""
    · rw [if_pos h]
      calc (Provider.getLoop attempts (i + 1) r (some (pageOf attempts i))).2
          ≤ (i + 1) + r := ih (i + 1) _
        _ ≤ i + (r + 1) := by omega
    · rw [if_neg h]; omega

theorem getLoop_first_success (attempts : Nat → AttemptResult) :
    ∀ k i r page, k < r → (∀ j, j < k → pageOf attempts (i + j) = "") →
      pageOf attempts (i + k) ≠ "" →
      Provider.getLoop attempts i r page =
        (some (pageOf attempts (i + k)), i + k + 1) := by
  intro k
  induction k with
  | zero =>
    intro i r page hk hj hs
    obtain ⟨r', rfl⟩ : ∃ r', r = r' + 1 := ⟨r - 1, by omega⟩
    simp only [Provider.getLoop]
    rw [if_neg (by simpa using hs)]
    simp
  | succ k ih =>
    intro i r page hk hj hs
    obtain ⟨r', rfl⟩ : ∃ r', r = r' + 1 := ⟨r - 1, by omega⟩
    have h0 : pageOf attempts i = "" := by simpa using hj 0 (by omega)
    simp only [Provider.getLoop]
    rw [if_pos h0]
    have harith : (i + 1) + k = i + (k + 1) := by omega
    have := ih (i + 1) r' (some (pageOf attempts i)) (by omega)
      (fun j hjk => by
        have h' : (i + 1) + j = i + (j + 1) := by omega
        rw [h']
        exact hj (j + 1) (by omega))
      (by rw [harith]; exact hs)
    rw [this, harith]

theorem getLoop_all_fail (attempts : Nat → AttemptResult) :
    ∀ r i page, 1 ≤ r → (∀ j, j < r → pageOf attempts (i + j) = "") →
      Provider.getLoop attempts i r page = (some "", i + r) := by
  intro r
  induction r with
  | zero => intro i page hr; omega
  | succ r ih =>
    intro i page _ hj
    have h0 : pageOf attempts i = "" := by simpa using hj 0 (by omega)
    simp only [Provider.getLoop]
    rw [if_pos h0, h0]
    rcases Nat.eq_zero_or_pos r with hr0 | hr1
    · subst hr0; simp [Provider.getLoop]
    · have := ih (i + 1) (some "") hr1
        (fun j hjr => by
          have h' : (i + 1) + j = i + (j + 1) := by omega
          rw [h']
          exact hj (j + 1) (by omega))
      rw [this]
      congr 1
      omega

theorem getLoop_isSome (attempts : Nat → AttemptResult) :
    ∀ r i page, 1 ≤ r → ∃ s, (Provider.getLoop attempts i r page).1 = some s := by
  intro r
  induction r with
  | zero => intro i page hr; omega
  | succ r ih =>
    intro i page _
    simp only [Provider.getLoop]
    by_cases h : pageOf attempts i = ""
    · rw [if_pos h]
      rcases Nat.eq_zero_or_pos r with hr0 | hr1
      · subst hr0; exact ⟨pageOf attempts i, rfl⟩
      · exact ih (i + 1) _ hr1
    · rw [if_neg h]; exact ⟨pageOf attempts i, rfl⟩

/-- Claim C1 (counterexample): the claim says a non-200 attempt discards the
response body and contributes empty text; but `Provider._get` on a 404
response whose body read succeeded returns the body itself (`"oops"`),
which is not empty — the `BadStatusError` is raised only after `page` was
assigned, and the `except` clause swallows it and returns `page`. -/
theorem get_badstatus_counterexample :
    (Provider._get (.resp 404 "oops")).badStatus = true ∧
    (Provider._get (.resp 404 "oops")).page = "oops" ∧
    ¬(Provider._get (.resp 404 "oops")).page = "" := by decide

/-- Claim C1 (amended): for every attempt whose response has a non-200 status
and whose body read succeeded, `Provider._get` raises (and internally
catches) `BadStatusError`, and returns the already-read response body —
the body is *not* discarded; the attempt contributes empty text only when
the request or body read itself failed. -/
theorem get_badstatus_amended (status : Nat) (body : String)
    (h : status ≠ 200) :
    (Provider._get (.resp status body)).badStatus = true ∧
    (Provider._get (.resp status body)).page = body ∧
    (Provider._get .fail).page = "" := by
  refine ⟨?_, rfl, rfl⟩
  simp [Provider._get, bne_iff_ne]
  exact h

/-- Witness for C1 (amended) at status 404 with body `"oops"`. -/
theorem get_badstatus_amended_witness :
    (Provider._get (.resp 404 "oops")).badStatus = true ∧
    (Provider._get (.resp 404 "oops")).page = "oops" ∧
    (Provider._get .fail).page = "" :=
  get_badstatus_amended 404 "oops" (by decide)

/-- Claim C2: with retry budget `n ≥ 1`, `Provider.get` issues at most `n`
attempts; if the first non-empty page text arrives on attempt `k < n`
(all earlier attempts empty), it stops there, returning that text after
exactly `k + 1` attempts; and if all `n` attempts yield empty text it
returns the empty string after exactly `n` attempts. -/
theorem get_retry_spec (n : Nat) (attempts : Nat → AttemptResult)
    (hn : 1 ≤ n) :
    (Provider.get n attempts).2 ≤ n ∧
    (∀ k, k < n → (∀ j, j < k → pageOf attempts j = "") →
      pageOf attempts k ≠ "" →
      Provider.get n attempts = (some (pageOf attempts k), k + 1)) ∧
    ((∀ j, j < n → pageOf attempts j = "") →
      Provider.get n attempts = (some "", n)) := by
  refine ⟨?_, ?_, ?_⟩
  · simpa using getLoop_count_le attempts n 0 none
  · intro k hk hj hs
    have := getLoop_first_success attempts k 0 n none hk
      (fun j hjk => by simpa using hj j hjk) (by simpa using hs)
    simpa using this
  · intro hall
    have := getLoop_all_fail attempts n 0 none hn
      (fun j hjn => by simpa using hall j hjn)
    simpa using this

/-- Witness for C2: budget 3, two failing attempts then a 200 response
with body `"ok"` — the successful body is returned and exactly three
(not four) attempts are issued. -/
theorem get_retry_spec_witness :
    Provider.get 3 (fun i => if i = 2 then .resp 200 "ok" else .fail) =
      (some "ok", 3) := by
  have h := (get_retry_spec 3
    (fun i => if i = 2 then .resp 200 "ok" else .fail) (by decide)).2.1 2
    (by decide)
    (fun j hj => by
      match j with
      | 0 => rfl
      | 1 => rfl
      | j + 2 => omega)
    (by decide)
  simpa using h

/-- Claim C10: `Provider.get` with retry budget 0 never binds the local `page`
and hits `UnboundLocalError` at `return page` (modelled as `none`), while
with any budget `n ≥ 1` the loop body runs at least once and a (possibly
empty) string is returned. -/
theorem get_zero_tries_unbound (attempts : Nat → AttemptResult) :
    Provider.get 0 attempts = (none, 0) ∧
    ∀ n, 1 ≤ n → ∃ s, (Provider.get n attempts).1 = some s := by
  refine ⟨rfl, ?_⟩
  intro n hn
  exact getLoop_isSome attempts n 0 none hn

/-- Witness for C10 at budget 0 and budget 1 with always-failing
attempts. -/
theorem get_zero_tries_unbound_witness :
    Provider.get 0 (fun _ => .fail) = (none, 0) ∧
    ∃ s, (Provider.get 1 (fun _ => .fail)).1 = some s :=
  ⟨(get_zero_tries_unbound (fun _ => .fail)).1,
   (get_zero_tries_unbound (fun _ => .fail)).2 1 (by decide)⟩

/-! Helper lemmas about the aggregator. -/

theorem mem_proxies_setter (st : ProviderState) (new : List (String × String))
    (h p : String) (pr : List String) :
    (h, p, pr) ∈ (Provider.proxies_setter st new)._proxies ↔
      (h, p, pr) ∈ st._proxies ∨
        ((h, p) ∈ new ∧ p ≠ "" ∧ pr = st.proto) := by
  simp only [Provider.proxies_setter, Finset.mem_union, List.mem_toFinset,
    List.mem_map, List.mem_filter]
  constructor
  · rintro (hs | ⟨⟨h1, p1⟩, ⟨hmem, hne⟩, heq⟩)
    · exact Or.inl hs
    · cases heq
      exact Or.inr ⟨hmem, by simpa using hne, rfl⟩
  · rintro (hs | ⟨hmem, hne, rfl⟩)
    · exact Or.inl hs
    · exact Or.inr ⟨(h, p), ⟨hmem, by simpa using hne⟩, rfl⟩

theorem proxies_setter_proto (st : ProviderState)
    (new : List (String × String)) :
    (Provider.proxies_setter st new).proto = st.proto := rfl

theorem protoUniform_setter (st : ProviderState)
    (new : List (String × String))
    (hu : ∀ r ∈ st._proxies, r.2.2 = st.proto) :
    ∀ r ∈ (Provider.proxies_setter st new)._proxies, r.2.2 = st.proto := by
  rintro ⟨a, b, c⟩ hr
  rcases (mem_proxies_setter st new a b c).1 hr with hs | ⟨_, _, rfl⟩
  · exact hu _ hs
  · rfl

theorem protoUniform_mergeAll :
    ∀ (lists : List (List (String × String))) (st : ProviderState),
      (∀ r ∈ st._proxies, r.2.2 = st.proto) →
      ∀ r ∈ (Provider.mergeAll st lists)._proxies, r.2.2 = st.proto := by
  intro lists
  induction lists with
  | nil => intro st hu r hr; exact hu r hr
  | cons l ls ih =>
    intro st hu r hr
    exact ih (Provider.proxies_setter st l) (protoUniform_setter st l hu) r hr

/-- Claim C7: the `proxies` setter keeps every existing record, discards every
candidate whose port is empty (falsy), and stores every accepted candidate
as the triple `(host, port, self.proto)` tagged with the provider's
declared protocol tuple — a record is in the merged set iff it was already
there or it is an accepted, tagged candidate of the merged list. -/
theorem proxies_setter_spec (st : ProviderState)
    (new : List (String × String)) (h p : String) (pr : List String) :
    (h, p, pr) ∈ (Provider.proxies_setter st new)._proxies ↔
      (h, p, pr) ∈ st._proxies ∨
        ((h, p) ∈ new ∧ p ≠ "" ∧ pr = st.proto) :=
  mem_proxies_setter st new h p pr

/-- Claim C8: starting from a freshly constructed provider (`__init__` sets
`_proxies = set()`), after any sequence of `proxies` setter calls in any
order, no two records of the result set agree on `(host, port)` without
being the same record. -/
theorem result_set_dedup (proto : List String)
    (lists : List (List (String × String)))
    (r1 r2 : String × String × List String)
    (h1 : r1 ∈ (Provider.mergeAll (Provider.init proto) lists)._proxies)
    (h2 : r2 ∈ (Provider.mergeAll (Provider.init proto) lists)._proxies)
    (hh : r1.1 = r2.1) (hp : r1.2.1 = r2.2.1) : r1 = r2 := by
  have hinit : ∀ r ∈ (Provider.init proto)._proxies,
      r.2.2 = (Provider.init proto).proto := by
    intro r hr
    simp [Provider.init] at hr
  have u1 := protoUniform_mergeAll lists (Provider.init proto) hinit r1 h1
  have u2 := protoUniform_mergeAll lists (Provider.init proto) hinit r2 h2
  obtain ⟨a1, b1, c1⟩ := r1
  obtain ⟨a2, b2, c2⟩ := r2
  simp only at hh hp u1 u2
  subst hh hp u1
  rw [u2]
  rfl

/-- Witness for C8: a one-merge run containing the record
`("1.2.3.4", "80", ["HTTP"])`. -/
theorem result_set_dedup_witness :
    ("1.2.3.4", "80", ["HTTP"]) ∈
      (Provider.mergeAll (Provider.init ["HTTP"])
        [[("1.2.3.4", "80")]])._proxies ∧
    (("1.2.3.4", "80", ["HTTP"]) : String × String × List String) =
      ("1.2.3.4", "80", ["HTTP"]) :=
  ⟨by decide,
   result_set_dedup ["HTTP"] [[("1.2.3.4", "80")]] _ _ (by decide) (by decide)
     rfl rfl⟩

/-- Claim C9: merging the same candidate list twice is the same as merging it
once — the provider state (hence in particular the size of the result
set) is unchanged by the repeated merge. -/
theorem merge_idempotent (st : ProviderState)
    (new : List (String × String)) :
    Provider.proxies_setter (Provider.proxies_setter st new) new =
      Provider.proxies_setter st new ∧
    (Provider.proxies_setter (Provider.proxies_setter st new)
        new)._proxies.card =
      (Provider.proxies_setter st new)._proxies.card := by
  have key : Provider.proxies_setter (Provider.proxies_setter st new) new =
      Provider.proxies_setter st new := by
    simp only [Provider.proxies_setter]
    congr 1
    rw [Finset.union_assoc, Finset.union_self]
  exact ⟨key, by rw [key]⟩

/-! Scheme A (digit substitution) and Scheme B (XOR tokens) claims. -/

theorem scheme_A_plus_hom (tbl : List (Char × String)) (xs ys : List Char) :
    Xseo_in.char_js_port_to_num tbl (xs ++ '+' :: ys) =
      (Xseo_in.char_js_port_to_num tbl xs).bind
        (fun a => (Xseo_in.char_js_port_to_num tbl ys).map
          (fun b => a ++ b)) := by
  induction xs with
  | nil =>
    simp only [List.nil_append]
    cases hys : Xseo_in.char_js_port_to_num tbl ys <;>
      simp [Xseo_in.char_js_port_to_num, hys]
  | cons c xs ih =>
    by_cases hc : c = '+'
    · subst hc
      simp only [List.cons_append, Xseo_in.char_js_port_to_num, if_pos rfl]
      exact ih
    · simp only [List.cons_append, Xseo_in.char_js_port_to_num, if_neg hc]
      cases hl : lookupTable tbl c with
      | none => simp
      | some d =>
        simp only [List.append_eq]
        rw [ih]
        cases hxs : Xseo_in.char_js_port_to_num tbl xs <;>
          cases hys : Xseo_in.char_js_port_to_num tbl ys <;>
            simp [String.append_assoc]

/-- Claim C4: the Scheme A interpreter shared by `Xseo_in` and `Nntime_com`
replaces an expression site by the decimal concatenation of the digits
looked up for each referenced letter, in order, dropping the `+` join
operator: the table `{a: "1", b: "2", c: "3"}` sends `a+b+c` to `"123"`;
`Nntime_com.char_js_port_to_num` is the same function as the `Xseo_in`
one; a `+` at any position joins the two sides by concatenation; and
`re.sub` splices the digits of each resolved site back between the
surrounding literal text. -/
theorem scheme_A_digit_concat :
    Xseo_in.char_js_port_to_num [('a', "1"), ('b', "2"), ('c', "3")]
      "a+b+c".toList = some "123" ∧
    Nntime_com.char_js_port_to_num = Xseo_in.char_js_port_to_num ∧
    (∀ tbl xs ys, Xseo_in.char_js_port_to_num tbl (xs ++ '+' :: ys) =
      (Xseo_in.char_js_port_to_num tbl xs).bind
        (fun a => (Xseo_in.char_js_port_to_num tbl ys).map
          (fun b => a ++ b))) ∧
    (∀ tbl pre cs post num,
      Xseo_in.char_js_port_to_num tbl cs.toList = some num →
      Xseo_in.rewritePage tbl [.lit pre, .site cs, .lit post] =
        some (pre ++ (num ++ post))) := by
  refine ⟨by rfl, rfl, scheme_A_plus_hom, ?_⟩
  intro tbl pre cs post num h
  have h' : Xseo_in.char_js_port_to_num tbl cs.data = some num := h
  simp [Xseo_in.rewritePage, h']

/-- Witness for C4: the site `a+b+c` inside `port=…;` text rewrites to
`"123"` in place. -/
theorem scheme_A_digit_concat_witness :
    Xseo_in.rewritePage [('a', "1"), ('b', "2"), ('c', "3")]
      [.lit "port=", .site "a+b+c", .lit ";"] =
      some ("port=" ++ ("123" ++ ";")) := by
  have h := scheme_A_digit_concat
  exact h.2.2.2 _ "port=" "a+b+c" ";" "123" h.1

/-- Claim C3 (counterexample): the claim says a chained definition
`cccc=aaaa^bbbb` whose both operands are previously-defined token names
resolves `cccc` to `6`; but the resolution loop feeds the *first* operand
to `int()` (`int('aaaa')`), which raises `ValueError`, so the whole
table resolution fails (`none`) instead of binding `cccc`. -/
theorem spys_chained_token_counterexample :
    Spys_ru.resolveTokens
      [("aaaa", "5"), ("bbbb", "3"), ("cccc", "aaaa^bbbb")] [] = none := by
  decide

/-- Claim C3 (amended): the token table is resolved in definition order, where
each definition is either a literal integer or an XOR of a literal and a
*previously-defined token name* (in that operand order); with tokens
`aaaa=5`, `bbbb=3`, the port-expression pair `(aaaa^bbbb)` rewrites to
the decimal string of `5 XOR 3 = 6`; and a chained definition in the
supported `literal^token` form (`bbbb=3^aaaa`, then `cccc=1^bbbb`)
resolves each token before a later definition references it
(`bbbb = 3 XOR 5 = 6`, `cccc = 1 XOR 6 = 7`). -/
theorem spys_token_interpreter_amended :
    Spys_ru.char_js_port_to_num [("aaaa", 5), ("bbbb", 3)]
      "+(aaaa^bbbb)" = some "6" ∧
    (Spys_ru.resolveTokens
        [("aaaa", "5"), ("bbbb", "3^aaaa"), ("cccc", "1^bbbb")] []).map
      (fun tbl => (lookupTable tbl "bbbb", lookupTable tbl "cccc")) =
      some (some 6, some 7) := by
  constructor
  · decide
  · decide

/-- Claim C5 (counterexample): the claim says no discovery/session failure
raises past `Spys_ru._pipe`; but for the non-empty index page `"hello"`
(fetched successfully, yet holding no 32-character session token) the
subscript `re.findall(...)[0]` raises `IndexError`, which nothing in
`_pipe` catches. -/
theorem spys_pipe_raises_counterexample :
    Spys_ru._pipe "hello" = .error "IndexError: list index out of range" ∧
    "hello" ≠ "" := ⟨rfl, by decide⟩

/-- Claim C5 (amended): an empty discovery fetch degrades `Spys_ru` to zero
follow-up requests with no error, and an extraction failure inside
`find_proxies` is caught per page by `Provider._find_on_page` (the state
update is the same as extracting nothing); but when the index page is
non-empty and no session token can be extracted from it, `Spys_ru._pipe`
raises an uncaught `IndexError` that unwinds past the pipeline task. -/
theorem spys_pipe_containment_amended :
    (∀ page : String, page = "" → Spys_ru._pipe page = .ok []) ∧
    (∀ st page e, Provider._find_on_page st page (.error e) =
      Provider._find_on_page st page (.ok [])) ∧
    (∀ page, page ≠ "" → Spys_ru.findSession page = none →
      Spys_ru._pipe page = .error "IndexError: list index out of range") := by
  refine ⟨?_, ?_, ?_⟩
  · intro page h
    rw [h]
    rfl
  · intro st page e
    rfl
  · intro page h hs
    simp [Spys_ru._pipe, h, hs]

/-- Witness for C5 (amended): the empty page, a concrete caught
extraction error, and the tokenless page `"z"`. -/
theorem spys_pipe_containment_amended_witness :
    Spys_ru._pipe "" = .ok [] ∧
    Provider._find_on_page (Provider.init ["HTTP"]) "x" (.error "E") =
      Provider._find_on_page (Provider.init ["HTTP"]) "x" (.ok []) ∧
    Spys_ru._pipe "z" = .error "IndexError: list index out of range" := by
  have h := spys_pipe_containment_amended
  exact ⟨h.1 "" rfl, h.2.1 _ "x" "E", h.2.2 "z" (by decide) (by decide)⟩

/-- Claim C6: a source whose initial discovery fetch returns empty text returns
early from `_pipe` with no follow-up pages and no error
(`Webanetlabs_net._pipe` for any link-discovery outcome, and
`Spys_ru._pipe`), and a run that crawls no pages leaves the freshly
initialised result set empty. -/
theorem empty_discovery_zero_results :
    (∀ findLinks, Webanetlabs_net._pipe findLinks "" = .ok []) ∧
    Spys_ru._pipe "" = .ok [] ∧
    (∀ proto, (Provider.runPages (Provider.init proto) [])._proxies = ∅) :=
  ⟨fun _ => rfl, rfl, fun _ => rfl⟩

end ProxyBroker
